import Mathlib

/-!
Verification of the lifecycle / admission-control core of the hapi server
(src/lib/realm.js, src/lib/xxx.js and the matching unnamed source parts).

The development shallowly embeds the relevant JavaScript code:

* JavaScript runtime values that reach the constructor argument classifier
  (`internals.XXX.port`) are modelled by `JSVal`; JavaScript numbers are
  modelled by `JsNum` (exact rationals plus NaN and the two infinities;
  binary64 rounding of in-range values is not modelled because no claim
  depends on it, while overflow to infinity is modelled because it changes
  the finiteness test used by the classifier).
* The unary plus coercion `+s` on strings is modelled by `jsStrToNum`,
  following the ECMAScript ToNumber grammar for string arguments:
  whitespace trimming, empty string to 0, signed decimal literals with
  optional fraction and exponent, `Infinity`, and the radix-prefixed
  integer literals `0x`, `0o`, `0b`.
* The configuration resolution performed by the `internals.Realm`
  constructor is modelled by pure functions; every `Hoek.assert` failure
  becomes an `Except.error`.
-/

deriving instance DecidableEq for Except

namespace Hapi

/-- JavaScript numbers as used by this code: an exact rational, NaN, or an
infinity. -/
inductive JsNum where
  | finite (q : ℚ)
  | nan
  | posInf
  | negInf
deriving DecidableEq, Repr

/-- The `isFinite` predicate of JavaScript. -/
def jsNumFinite : JsNum → Bool
  | .finite _ => true
  | _ => false

/-- JavaScript runtime values that can reach the constructor argument
classifier: `undefined`, `null`, booleans, strings, numbers, plain objects
(tracked by an identifier, their contents are irrelevant to
classification), functions, and instances of the internal Pack/Server
composite (recognised by `instanceof` before any `typeof` dispatch). -/
inductive JSVal where
  | undefined
  | jsNull
  | boolean (b : Bool)
  | str (s : String)
  | num (n : JsNum)
  | obj (id : Nat)
  | func
  | pack (id : Nat)
deriving DecidableEq, Repr

/-- The `typeof` operator restricted to the modelled values (`typeof null`
is the string "object" in JavaScript). -/
def typeofJs : JSVal → String
  | .undefined => "undefined"
  | .jsNull => "object"
  | .boolean _ => "boolean"
  | .str _ => "string"
  | .num _ => "number"
  | .obj _ => "object"
  | .func => "function"
  | .pack _ => "object"

/-- JavaScript truthiness of the modelled values. -/
def jsTruthy : JSVal → Bool
  | .undefined => false
  | .jsNull => false
  | .boolean b => b
  | .str s => s ≠ ""
  | .num (.finite q) => q ≠ 0
  | .num .nan => false
  | .num .posInf => true
  | .num .negInf => true
  | .obj _ => true
  | .func => true
  | .pack _ => true

/-! ### ToNumber on strings (the `+argVal` coercion) -/

/-- Characters treated as whitespace by ToNumber (the common ones; enough
for every string any claim exercises). -/
def isJsWhitespaceChar (c : Char) : Bool :=
  c = ' ' || c = '\t' || c = '\n' || c = '\r' || c = '\x0b' || c = '\x0c' ||
  c = '\u00a0' || c = '\u2028' || c = '\u2029' || c = '\ufeff'

/-- Trim leading and trailing ToNumber whitespace from a character list. -/
def jsTrimChars (cs : List Char) : List Char :=
  ((cs.dropWhile isJsWhitespaceChar).reverse.dropWhile isJsWhitespaceChar).reverse

/-- Value of a single digit character in bases up to 16, if any. -/
def charDigitVal (c : Char) : Option Nat :=
  if '0' ≤ c ∧ c ≤ '9' then some (c.toNat - 48)
  else if 'a' ≤ c ∧ c ≤ 'f' then some (c.toNat - 87)
  else if 'A' ≤ c ∧ c ≤ 'F' then some (c.toNat - 55)
  else none

/-- Value of a nonempty digit string in the given base; `none` when empty
or when any character is not a digit of that base. -/
def baseDigitsVal (base : Nat) (cs : List Char) : Option Nat :=
  if cs = [] then none
  else
    cs.foldl
      (fun acc c =>
        acc.bind fun a =>
          match charDigitVal c with
          | some d => if d < base then some (a * base + d) else none
          | none => none)
      (some 0)

/-- Split a character list at the first character satisfying `p`: the part
before it and, when such a character exists, the part after it. -/
def splitOnFirst (p : Char → Bool) : List Char → List Char × Option (List Char)
  | [] => ([], none)
  | c :: cs =>
    if p c then ([], some cs)
    else
      match splitOnFirst p cs with
      | (pre, rest) => (c :: pre, rest)

/-- Leading sign of a numeric literal: whether it is negative, and the
remaining characters. -/
def parseSignChars : List Char → Bool × List Char
  | '+' :: r => (false, r)
  | '-' :: r => (true, r)
  | r => (false, r)

/-- Unsigned decimal literal, as in the ECMAScript
StrUnsignedDecimalLiteral grammar: digits with optional fraction and
optional exponent. The result is returned in parts — the combined
mantissa `intPart * 10 ^ fracLen + fracPart`, the fraction length, and
the signed exponent — so that the value `mant / 10 ^ fracLen * 10 ^ exp`
can be built without rational arithmetic. -/
def parseUnsignedDecParts (cs : List Char) : Option (ℕ × ℕ × ℤ) :=
  match splitOnFirst (fun c => c = 'e' || c = 'E') cs with
  | (mantPart, expPart) =>
    match splitOnFirst (fun c => c = '.') mantPart with
    | (ip, fpOpt) =>
      let ipVal : Option Nat :=
        match fpOpt with
        | none => baseDigitsVal 10 ip
        | some _ => if ip = [] then some 0 else baseDigitsVal 10 ip
      let frac : Option (Nat × Nat) :=
        match fpOpt with
        | none => if ip = [] then none else some (0, 0)
        | some fp =>
          if fp = [] then (if ip = [] then none else some (0, 0))
          else (baseDigitsVal 10 fp).map (fun v => (v, fp.length))
      let expVal : Option ℤ :=
        match expPart with
        | none => some 0
        | some ecs =>
          match parseSignChars ecs with
          | (neg, digs) =>
            (baseDigitsVal 10 digs).map (fun v => if neg then -(v : ℤ) else (v : ℤ))
      match ipVal, frac, expVal with
      | some i, some (f, fl), some e => some (i * 10 ^ fl + f, fl, e)
      | _, _, _ => none

/-- Smallest magnitude at which a real value rounds to a binary64
infinity, that is `2 ^ 1024 - 2 ^ 970` (written out as a literal so that
it evaluates without unfolding the power function). -/
def jsOverflowNum : ℕ := 179769313486231580793728971405303415079934132710037826936173778980444968292764750946649017977587207096330286416692887910946555547851940402630657488671505820681908902000708383676273854845817711531764475730270069855571366959622842914819860834936475292719074168444365510704342711559699508093042880177904174497792

/-- Build the JavaScript number `mant / 10 ^ fracLen * 10 ^ exp` with the
given sign, overflowing to an infinity when the magnitude reaches the
binary64 range limit. -/
def jsNumOfParts (neg : Bool) (mant fracLen : ℕ) (exp : ℤ) : JsNum :=
  let parts : ℕ × ℕ :=
    if 0 ≤ exp then (mant * 10 ^ exp.toNat, 10 ^ fracLen)
    else (mant, 10 ^ (fracLen + (-exp).toNat))
  if jsOverflowNum * parts.2 ≤ parts.1 then (if neg then .negInf else .posInf)
  else .finite (mkRat (if neg then -(parts.1 : ℤ) else (parts.1 : ℤ)) parts.2)

/-- Signed decimal part of the string grammar: optional sign, then either
the literal `Infinity` or an unsigned decimal literal. -/
def jsDecimalChars (cs : List Char) : JsNum :=
  match parseSignChars cs with
  | (neg, rest) =>
    if rest = "Infinity".data then (if neg then .negInf else .posInf)
    else
      match parseUnsignedDecParts rest with
      | some (mant, fl, e) => jsNumOfParts neg mant fl e
      | none => .nan

/-- ECMAScript ToNumber on a string value: the meaning of `+s` in the
constructor argument classifier. -/
def jsStrToNum (s : String) : JsNum :=
  let cs := jsTrimChars s.data
  if cs = [] then .finite 0
  else
    match cs with
    | '0' :: c :: rest =>
      if c = 'x' || c = 'X' then
        (match baseDigitsVal 16 rest with
         | some v => jsNumOfParts false v 0 0
         | none => .nan)
      else if c = 'b' || c = 'B' then
        (match baseDigitsVal 2 rest with
         | some v => jsNumOfParts false v 0 0
         | none => .nan)
      else if c = 'o' || c = 'O' then
        (match baseDigitsVal 8 rest with
         | some v => jsNumOfParts false v 0 0
         | none => .nan)
      else jsDecimalChars cs
    | _ => jsDecimalChars cs

/-! ### Character-list string operations

The String primitives of the standard library (`contains`, `replace`,
`startsWith`, `endsWith`, `toUpper`, `toLower`) operate on byte positions
and do not evaluate inside the kernel, so the operations the embedded
code needs are defined here over the character list of the string, with
the same meaning as their JavaScript counterparts on the code points the
claims exercise. -/

/-- Whether the second list is a prefix of the first. -/
def charListStartsWith : List Char → List Char → Bool
  | _, [] => true
  | [], _ :: _ => false
  | a :: as, b :: bs => a = b && charListStartsWith as bs

/-- `String.prototype.indexOf(prefix) === 0`. -/
def strStartsWith (s p : String) : Bool :=
  charListStartsWith s.data p.data

/-- Whether `s` ends with `p`. -/
def strEndsWith (s p : String) : Bool :=
  charListStartsWith s.data.reverse p.data.reverse

/-- `String.prototype.indexOf(c) !== -1` for a single character. -/
def strContainsChar (s : String) (c : Char) : Bool :=
  s.data.contains c

/-- Replace every occurrence of `pat` (leftmost first, non-overlapping,
as a JavaScript global replace with a literal pattern) in the list. The
fuel starts at the list length, which bounds the recursion because every
step consumes at least one character. -/
def replaceCharsAux (pat rep : List Char) : ℕ → List Char → List Char
  | _, [] => []
  | 0, l => l
  | fuel + 1, c :: cs =>
    if charListStartsWith (c :: cs) pat && !pat.isEmpty then
      rep ++ replaceCharsAux pat rep fuel ((c :: cs).drop pat.length)
    else c :: replaceCharsAux pat rep fuel cs

/-- `String.prototype.replace` with a global literal pattern. -/
def strReplace (s pat rep : String) : String :=
  String.mk (replaceCharsAux pat.data rep.data s.data.length s.data)

/-- ASCII upper-casing of one character. -/
def asciiUpper (c : Char) : Char :=
  if 'a' ≤ c && c ≤ 'z' then Char.ofNat (c.toNat - 32) else c

/-- ASCII lower-casing of one character. -/
def asciiLower (c : Char) : Char :=
  if 'A' ≤ c && c ≤ 'Z' then Char.ofNat (c.toNat + 32) else c

/-- `String.prototype.toUpperCase` on ASCII strings. -/
def strToUpper (s : String) : String :=
  String.mk (s.data.map asciiUpper)

/-- `String.prototype.toLowerCase` on ASCII strings. -/
def strToLower (s : String) : String :=
  String.mk (s.data.map asciiLower)

/-! ### Constructor argument classification (`internals.XXX.port`) -/

/-- The three logical slots of the `argMap` table in `internals.XXX.port`:
string to host, number to port, object to options. -/
inductive SlotName where
  | host
  | port
  | options
deriving DecidableEq, Repr

/-- Per-argument outcome of one iteration of the classification loop in
`internals.XXX.port`: skip (`undefined`), the pack fast path
(`instanceof Server`), a slot assignment with the possibly coerced value,
or a type with no `argMap` entry (fatal). -/
inductive ArgClass where
  | skip
  | toPack (id : Nat)
  | slot (k : SlotName) (v : JSVal)
  | badType (t : String)
deriving DecidableEq, Repr

/-- One iteration of the loop in `internals.XXX.port`: skip `undefined`,
divert composite instances to the pack slot, coerce a string whose
ToNumber image is finite to that number (classified as a number), then map
the resulting `typeof` through `argMap`. -/
def classifyArg : JSVal → ArgClass
  | .undefined => .skip
  | .pack i => .toPack i
  | .str s =>
    if jsNumFinite (jsStrToNum s) then .slot .port (.num (jsStrToNum s))
    else .slot .host (.str s)
  | .num n => .slot .port (.num n)
  | .jsNull => .slot .options .jsNull
  | .obj i => .slot .options (.obj i)
  | .boolean _ => .badType "boolean"
  | .func => .badType "function"

/-- The result object built by `internals.XXX.port`: one optional value
per slot plus the pack reference. -/
structure ServerArgs where
  host : Option JSVal := none
  port : Option JSVal := none
  options : Option JSVal := none
  pack : Option Nat := none
deriving DecidableEq, Repr

/-- Read a slot of the result object. -/
def getSlot (r : ServerArgs) : SlotName → Option JSVal
  | .host => r.host
  | .port => r.port
  | .options => r.options

/-- Write a slot of the result object. -/
def setSlot (r : ServerArgs) : SlotName → JSVal → ServerArgs
  | .host, v => { r with host := some v }
  | .port, v => { r with port := some v }
  | .options, v => { r with options := some v }

/-- Truthiness of `result[key]` in the duplicate check
`Hoek.assert(!result[key], ...)`: an absent slot reads as `undefined`
(falsy), a present slot has the truthiness of its stored value. -/
def slotOccupiedTruthy (r : ServerArgs) (k : SlotName) : Bool :=
  match getSlot r k with
  | some v => jsTruthy v
  | none => false

/-- Process a single argument against the accumulated result, mirroring
the body of the loop in `internals.XXX.port` with `Hoek.assert` failures
as errors. -/
def classifyInto (r : ServerArgs) (v : JSVal) : Except String ServerArgs :=
  match classifyArg v with
  | .skip => .ok r
  | .toPack i => .ok { r with pack := some i }
  | .badType t => .error ("Bad server constructor arguments: no match for arg type: " ++ t)
  | .slot k w =>
    if slotOccupiedTruthy r k then
      .error ("Bad server constructor arguments: duplicated arg type")
    else .ok (setSlot r k w)

/-- The loop of `internals.XXX.port` over all arguments. -/
def serverArgsFold (args : List JSVal) : Except String ServerArgs :=
  args.foldl (fun acc v => acc.bind (fun r => classifyInto r v)) (.ok {})

/-- `internals.XXX.port`: at most 4 arguments (the 4th slot is for the
internal composite), then the classification loop. -/
def serverArgsOf (args : List JSVal) : Except String ServerArgs :=
  if args.length ≤ 4 then serverArgsFold args else .error "Too many arguments"

/-! ### Host and port resolution (`internals.XXX` constructor) -/

/-- Node `Path.resolve` makes a UNIX socket path absolute against the
process working directory; the working directory is outside this model
and no claim exercises a UNIX socket host, so the path is kept as
given. -/
def pathResolve (s : String) : String := s

/-- The string slot of the classified arguments, when present. -/
def argsHostString (a : ServerArgs) : Option String :=
  match a.host with
  | some (.str s) => some s
  | _ => none

/-- Lines 44-49 of `internals.XXX`: detect UNIX socket and Windows pipe
hosts, reject a port alongside either, and compute `_host` and `_port`
(the port defaults to 443 with TLS and 80 without). -/
def resolveHostPort (a : ServerArgs) (tls : Bool) : Except String (String × JsNum) :=
  let h := argsHostString a
  let hTruthy : Bool := match h with | some s => s ≠ "" | none => false
  let hs := h.getD ""
  let unixSock : Bool := hTruthy && strContainsChar hs '/'
  let winPipe : Bool := hTruthy && strStartsWith hs "\\\\.\\pipe\\"
  if unixSock && a.port ≠ none then
    .error "Cannot specify port with a UNIX domain socket"
  else if winPipe && a.port ≠ none then
    .error "Cannot specify port with a Windows named pipe"
  else
    let hostOut : String :=
      if hTruthy then
        (if unixSock then pathResolve hs else if winPipe then hs else strToLower hs)
      else ""
    let portOut : JsNum :=
      match a.port with
      | some (.num n) => n
      | some _ => .nan
      | none => if tls then .finite 443 else .finite 80
    .ok (hostOut, portOut)

/-! ### CORS origin classification (`internals.Realm`, realm.js 188-213) -/

/-- Characters escaped by `Hoek.escapeRegex` (Hoek 2.x): each is prefixed
with a backslash. -/
def regexEscapeChars : List Char :=
  ['^', '$', '.', '*', '+', '-', '?', '=', '!', ':', '|', '\\', '/',
   '(', ')', '[', ']', '\x7b', '\x7d', ',']

/-- `Hoek.escapeRegex`: escape every regex metacharacter with a
backslash. -/
def escapeRegex (s : String) : String :=
  String.mk (s.data.foldr
    (fun c acc => if regexEscapeChars.contains c then '\\' :: c :: acc else c :: acc)
    [])

/-- Source text of the anchored pattern built for a wildcard origin entry:
`new RegExp('^' + Hoek.escapeRegex(origin).replace(/\\\*/g, '.*').replace(/\\\?/g, '.') + '$')`. -/
def compileOriginPattern (origin : String) : String :=
  "^" ++ (strReplace (strReplace (escapeRegex origin) "\\*" ".*") "\\?" ".") ++ "$"

/-- The derived `_origin` record. Wildcard patterns are kept as their
regex source strings. -/
structure CorsOrigin where
  any : Bool := false
  qualified : List String := []
  qualifiedString : String := ""
  wildcards : List String := []
deriving DecidableEq, Repr

/-- The classification loop over the origin list, in list order: an entry
whose text contains a `*` is compiled and pushed to `wildcards`, any
other entry is pushed to `qualified`. The per-entry test in the source is
`origin.indexOf('*') !== -1` on the entry string. -/
def corsOriginScan (origin : List String) : List String × List String :=
  origin.foldl
    (fun acc o =>
      if strContainsChar o '*' then (acc.1, acc.2 ++ [compileOriginPattern o])
      else (acc.1 ++ [o], acc.2))
    ([], [])

/-- Full `_origin` derivation for a non-empty (or empty) origin list:
`none` when the list is empty (the source leaves `_origin` unset); the
ANY mode when the list contains the element `"*"` and nothing else; a
fatal error when `"*"` is mixed with other values; otherwise the scan,
with a fatal error when wildcards are present while `matchOrigin` is
disabled, and `qualifiedString` the space join of `qualified`. -/
def corsOriginResolve (origin : List String) (matchOrigin : Bool) :
    Except String (Option CorsOrigin) :=
  if origin.length = 0 then .ok none
  else if origin.contains "*" then
    if origin.length = 1 then
      .ok (some { any := true })
    else .error "Cannot specify cors.origin * together with other values"
  else
    let scan := corsOriginScan origin
    if !matchOrigin && scan.2.length ≠ 0 then
      .error "Cannot include wildcard origin values with matchOrigin disabled"
    else
      .ok (some { any := false, qualified := scan.1,
                  qualifiedString := String.intercalate " " scan.1,
                  wildcards := scan.2 })

/-! ### Security header derivation (`internals.Realm`, realm.js 219-255) -/

/-- The merged `security.hsts` setting: boolean, number, or object with
optional `maxAge` and an `includeSubdomains` flag. -/
inductive HstsSetting where
  | flag (b : Bool)
  | num (n : ℤ)
  | object (maxAge : Option ℤ) (includeSubdomains : Bool)
deriving DecidableEq, Repr

/-- The merged `security.xframe` setting: boolean, string, or object with
a `rule` and an optional `source`. -/
inductive XframeSetting where
  | flag (b : Bool)
  | str (s : String)
  | object (rule : String) (source : Option String)
deriving DecidableEq, Repr

/-- Truthiness of the `hsts` setting, as tested by
`if (this.settings.security.hsts)`. -/
def hstsTruthy : HstsSetting → Bool
  | .flag b => b
  | .num n => n ≠ 0
  | .object _ _ => true

/-- Truthiness of the `xframe` setting, as tested by
`if (this.settings.security.xframe)`. -/
def xframeTruthy : XframeSetting → Bool
  | .flag b => b
  | .str s => s ≠ ""
  | .object _ _ => true

/-- The `_hsts` header value: skipped for a falsy setting; `true` gives
the fixed string; a number is appended to `max-age=`; an object uses
`maxAge || 15768000` and appends `; includeSubdomains` when the flag is
truthy. -/
def hstsHeader (h : HstsSetting) : Option String :=
  if hstsTruthy h then
    match h with
    | .flag _ => some "max-age=15768000"
    | .num n => some ("max-age=" ++ toString n)
    | .object maxAge inc =>
      let eff : ℤ :=
        match maxAge with
        | some m => if m ≠ 0 then m else 15768000
        | none => 15768000
      some ("max-age=" ++ toString eff ++ (if inc then "; includeSubdomains" else ""))
  else none

/-- The `_xframe` header value: skipped for a falsy setting; `true` gives
`DENY`; a string is upper-cased; an object with rule `allow-from` gives
`SAMEORIGIN` when `source` is falsy (absent or empty) and
`ALLOW-FROM <source>` otherwise; any other rule is upper-cased. -/
def xframeHeader (x : XframeSetting) : Option String :=
  if xframeTruthy x then
    match x with
    | .flag _ => some "DENY"
    | .str s => some (strToUpper s)
    | .object rule source =>
      if rule = "allow-from" then
        match source with
        | some s => if s = "" then some "SAMEORIGIN" else some ("ALLOW-FROM " ++ s)
        | none => some "SAMEORIGIN"
      else some (strToUpper rule)
  else none

/-! ### Timeout cross-validation (`internals.Realm`, realm.js 154-156) -/

/-- A merged `timeout.*` field: `undefined`, the boolean `false`
(disabled), or a number of milliseconds. -/
inductive TimeoutSetting where
  | undef
  | off
  | ms (n : ℚ)
deriving DecidableEq, Repr

/-- Truthiness of a timeout field (`undefined`, `false` and `0` are
falsy). -/
def timeoutTruthy : TimeoutSetting → Bool
  | .undef => false
  | .off => false
  | .ms n => n ≠ 0

/-- The JavaScript `<` comparison between two timeout values as it can
occur in the assertions (`false` coerces to 0; any comparison against
`undefined` is false). Both assertions only reach this comparison with
truthy operands. -/
def timeoutLt : TimeoutSetting → TimeoutSetting → Bool
  | .undef, _ => false
  | _, .undef => false
  | a, b =>
    (match a with | .off => (0 : ℚ) | .ms n => n | .undef => 0) <
    (match b with | .off => (0 : ℚ) | .ms n => n | .undef => 0)

/-- The merged `timeout` configuration (defaults: `socket` undefined,
`client` 10000, `server` false). -/
structure TimeoutConfig where
  socket : TimeoutSetting := .undef
  client : TimeoutSetting := .ms 10000
  server : TimeoutSetting := .off
deriving DecidableEq, Repr

/-- `var socketTimeout = (socket === undefined ? 2 * 60 * 1000 : socket)`. -/
def effectiveSocketTimeout (t : TimeoutConfig) : TimeoutSetting :=
  if t.socket = .undef then .ms 120000 else t.socket

/-- The two timeout assertions of the `Realm` constructor:
`!server || !socketTimeout || server < socketTimeout` and the analogous
client condition. `true` means both assertions pass. -/
def timeoutsValid (t : TimeoutConfig) : Bool :=
  let st := effectiveSocketTimeout t
  (!timeoutTruthy t.server || !timeoutTruthy st || timeoutLt t.server st) &&
  (!timeoutTruthy t.client || !timeoutTruthy st || timeoutLt t.client st)

/-- The user-supplied `timeout` object before the deep merge with the
defaults: an absent field takes the default. -/
structure RawTimeoutOptions where
  socket : Option TimeoutSetting := none
  client : Option TimeoutSetting := none
  server : Option TimeoutSetting := none
deriving DecidableEq, Repr

/-- Deep merge of the `timeout` object over the defaults table
(`socket: undefined`, `client: 10 * 1000`, `server: false`). -/
def mergeTimeout (r : RawTimeoutOptions) : TimeoutConfig :=
  { socket := r.socket.getD .undef,
    client := r.client.getD (.ms 10000),
    server := r.server.getD .off }

/-! ### Full configuration resolution (`internals.Realm` constructor) -/

/-- The merged CORS configuration (fields relevant to the derivations). -/
structure CorsConfig where
  origin : List String
  isOriginExposed : Bool
  matchOrigin : Bool
  maxAge : ℤ
  headers : List String
  additionalHeaders : List String
  methods : List String
  additionalMethods : List String
  exposedHeaders : List String
  additionalExposedHeaders : List String
  credentials : Bool
deriving DecidableEq, Repr

/-- The built-in `internals.defaults.cors` table. -/
def corsDefaults : CorsConfig :=
  { origin := ["*"],
    isOriginExposed := true,
    matchOrigin := true,
    maxAge := 86400,
    headers := ["Authorization", "Content-Type", "If-None-Match"],
    additionalHeaders := [],
    methods := ["GET", "HEAD", "POST", "PUT", "PATCH", "DELETE", "OPTIONS"],
    additionalMethods := [],
    exposedHeaders := ["WWW-Authenticate", "Server-Authorization"],
    additionalExposedHeaders := [],
    credentials := false }

/-- A user-supplied CORS override object: absent fields take the default
(`Hoek.applyToDefaults`; arrays in the override replace the default
arrays). -/
structure CorsOverride where
  origin : Option (List String) := none
  isOriginExposed : Option Bool := none
  matchOrigin : Option Bool := none
  maxAge : Option ℤ := none
  headers : Option (List String) := none
  additionalHeaders : Option (List String) := none
  methods : Option (List String) := none
  additionalMethods : Option (List String) := none
  exposedHeaders : Option (List String) := none
  additionalExposedHeaders : Option (List String) := none
  credentials : Option Bool := none
deriving DecidableEq, Repr

/-- `Hoek.applyToDefaults(internals.defaults.cors, override)`. -/
def mergeCors (o : CorsOverride) : CorsConfig :=
  { origin := o.origin.getD corsDefaults.origin,
    isOriginExposed := o.isOriginExposed.getD corsDefaults.isOriginExposed,
    matchOrigin := o.matchOrigin.getD corsDefaults.matchOrigin,
    maxAge := o.maxAge.getD corsDefaults.maxAge,
    headers := o.headers.getD corsDefaults.headers,
    additionalHeaders := o.additionalHeaders.getD corsDefaults.additionalHeaders,
    methods := o.methods.getD corsDefaults.methods,
    additionalMethods := o.additionalMethods.getD corsDefaults.additionalMethods,
    exposedHeaders := o.exposedHeaders.getD corsDefaults.exposedHeaders,
    additionalExposedHeaders := o.additionalExposedHeaders.getD corsDefaults.additionalExposedHeaders,
    credentials := o.credentials.getD corsDefaults.credentials }

/-- The `cors` option as supplied: `false` disables CORS
(`Hoek.applyToDefaults` returns `null`), `true` takes the defaults, an
object overrides them. -/
inductive CorsSetting where
  | disabled
  | defaults
  | custom (o : CorsOverride)
deriving DecidableEq, Repr

/-- The derived CORS structure: the merged configuration, the three
precomputed header strings (`_headers`, `_methods`, `_exposedHeaders`)
and the `_origin` record. -/
structure CorsDerived where
  config : CorsConfig
  headerString : String
  methodString : String
  exposedHeaderString : String
  origin : Option CorsOrigin
deriving DecidableEq, Repr

/-- Derivations run on an enabled merged CORS configuration: the three
joined header strings and the `_origin` classification. -/
def resolveCorsConfig (c : CorsConfig) : Except String (Option CorsDerived) :=
  match corsOriginResolve c.origin c.matchOrigin with
  | .error e => .error e
  | .ok org =>
    .ok (some
      { config := c,
        headerString := String.intercalate ", " (c.headers ++ c.additionalHeaders),
        methodString := String.intercalate ", " (c.methods ++ c.additionalMethods),
        exposedHeaderString :=
          String.intercalate ", " (c.exposedHeaders ++ c.additionalExposedHeaders),
        origin := org })

/-- Realm.js 182-215: merge the CORS defaults, then precompute the joined
header strings and the `_origin` classification. -/
def resolveCors (s : CorsSetting) : Except String (Option CorsDerived) :=
  match s with
  | .disabled => .ok none
  | .defaults => resolveCorsConfig corsDefaults
  | .custom o => resolveCorsConfig (mergeCors o)

/-- The merged security configuration. -/
structure SecurityConfig where
  hsts : HstsSetting
  xframe : XframeSetting
  xss : Bool
  noOpen : Bool
  noSniff : Bool
deriving DecidableEq, Repr

/-- The built-in `internals.defaults.security` table. -/
def securityDefaults : SecurityConfig :=
  { hsts := .num 15768000, xframe := .str "deny",
    xss := true, noOpen := true, noSniff := true }

/-- A user-supplied security override object. -/
structure SecurityOverride where
  hsts : Option HstsSetting := none
  xframe : Option XframeSetting := none
  xss : Option Bool := none
  noOpen : Option Bool := none
  noSniff : Option Bool := none
deriving DecidableEq, Repr

/-- `Hoek.applyToDefaults(internals.defaults.security, override)`. -/
def mergeSecurity (o : SecurityOverride) : SecurityConfig :=
  { hsts := o.hsts.getD securityDefaults.hsts,
    xframe := o.xframe.getD securityDefaults.xframe,
    xss := o.xss.getD securityDefaults.xss,
    noOpen := o.noOpen.getD securityDefaults.noOpen,
    noSniff := o.noSniff.getD securityDefaults.noSniff }

/-- The `security` option as supplied. -/
inductive SecuritySetting where
  | disabled
  | defaults
  | custom (o : SecurityOverride)
deriving DecidableEq, Repr

/-- The derived security structure: the merged configuration and the
precomputed `_hsts` and `_xframe` header values. -/
structure SecurityDerived where
  config : SecurityConfig
  hstsString : Option String
  xframeString : Option String
deriving DecidableEq, Repr

/-- Realm.js 219-255: merge the security defaults, then precompute the
`_hsts` and `_xframe` header values. -/
def resolveSecurity (s : SecuritySetting) : Option SecurityDerived :=
  match s with
  | .disabled => none
  | .defaults =>
    some { config := securityDefaults,
           hstsString := hstsHeader securityDefaults.hsts,
           xframeString := xframeHeader securityDefaults.xframe }
  | .custom o =>
    let c := mergeSecurity o
    some { config := c, hstsString := hstsHeader c.hsts,
           xframeString := xframeHeader c.xframe }

/-- The `labels` option: a single string or a list
(`[].concat(labels)`). -/
inductive LabelsSetting where
  | single (s : String)
  | many (l : List String)
deriving DecidableEq, Repr

/-- `Hoek.unique`: keep the first occurrence of each element. -/
def dedupFirst : List String → List String
  | [] => []
  | x :: xs => x :: (dedupFirst xs).filter (fun y => y ≠ x)

/-- The raw server options (the fields this core resolves); absent fields
take the defaults table of realm.js. -/
structure RawServerOptions where
  location : Option String := none
  cacheControlStatus : Option (List ℤ) := none
  labels : Option LabelsSetting := none
  timeout : Option RawTimeoutOptions := none
  cors : Option CorsSetting := none
  security : Option SecuritySetting := none
deriving DecidableEq, Repr

/-- The resolved settings the `Realm` constructor leaves behind (the
parts this core derives). -/
structure ResolvedSettings where
  location : String
  labels : List String
  timeout : TimeoutConfig
  cors : Option CorsDerived
  security : Option SecurityDerived
  cacheControlStatus : List ℤ
deriving DecidableEq, Repr

/-- The `internals.Realm` constructor as a pure resolution function:
defaults merge, label deduplication, the trailing-slash location
assertion, the two timeout assertions, the CORS derivation, the security
derivation, and the cache-control status list. Every `Hoek.assert`
failure is an error; the source mutates only the freshly cloned
`this.settings` object (`Hoek.applyToDefaults*` clone their default
table), which the embedding reflects by building a new structure. -/
def realmResolve (o : RawServerOptions) : Except String ResolvedSettings :=
  let location := o.location.getD ""
  let labels :=
    match o.labels.getD (.many []) with
    | .single s => dedupFirst [s]
    | .many l => dedupFirst l
  if location ≠ "" && strEndsWith location "/" then
    .error "Location setting must not contain a trailing slash"
  else
    let t := mergeTimeout (o.timeout.getD {})
    if !timeoutsValid t then
      .error "Realm or client timeout must be shorter than socket timeout"
    else
      match resolveCors (o.cors.getD .disabled) with
      | .error e => .error e
      | .ok cors =>
        .ok { location := location,
              labels := labels,
              timeout := t,
              cors := cors,
              security := resolveSecurity (o.security.getD .disabled),
              cacheControlStatus := o.cacheControlStatus.getD [200] }

/-! ### Admission gate (`internals.XXX.prototype._dispatch`) -/

/-- Observable effects of one run of the dispatch closure on one inbound
request: the log tag lists emitted, the immediate rejection replies (each
carrying the load snapshot passed to `Boom.serverTimeout`), and the
number of invocations of the external request pipeline
(`request._execute`). -/
structure DispatchEffects (α : Type) where
  logs : List (List String)
  rejections : List α
  executions : ℕ
deriving DecidableEq, Repr

/-- The dispatch closure body: `check` is the value returned by
`this._heavy.check()` (false when the server is overloaded); `load` is
the current load snapshot `this.load`. On overload the gate logs
`['hapi', 'load']` and replies once with a server-timeout rejection
carrying the snapshot; otherwise it runs the request lifecycle exactly
once and writes nothing itself. -/
def dispatchRequest {α : Type} (check : Bool) (load : α) : DispatchEffects α :=
  if !check then
    { logs := [["hapi", "load"]], rejections := [load], executions := 0 }
  else
    { logs := [], rejections := [], executions := 1 }

/-! ### Shutdown drain (`internals.XXX.prototype._stop`) -/

/-- The `options` argument of `_stop`. -/
structure StopOptions where
  timeout : Option ℚ := none
deriving DecidableEq, Repr

/-- `options.timeout = options.timeout || 5000`: any falsy value (absent
or 0) becomes the 5000 default. -/
def effectiveStopTimeout (o : StopOptions) : ℚ :=
  match o.timeout with
  | some t => if t ≠ 0 then t else 5000
  | none => 5000

/-- Asynchronous completions racing after `_stop` has armed the drain
timer and asked the listener to close: the drain timer fires, the
listener close completes, or one tracked connection closes naturally (its
once-close handler deletes the registry entry). -/
inductive StopEvent where
  | timerFires
  | closeCompletes
  | connCloses (key : String)
deriving DecidableEq, Repr

/-- State during the shutdown sequence: the registered connection keys,
whether the drain timer is still armed, whether the listener close has
completed, whether the stop callback has been invoked and with what error
argument, the keys forcibly destroyed, and whether the connection
listener has been removed. -/
structure StopState where
  connections : List String
  timerArmed : Bool
  closed : Bool
  callbackFired : Bool
  callbackError : Option String
  destroyed : List String
  connListenerRemoved : Bool
deriving DecidableEq, Repr

/-- Effect of one completion on the shutdown state. The timer handler
destroys every still-registered connection; the close handler removes the
connection listener, clears the timer, and invokes the callback with no
error argument; a natural connection close deletes its registry entry. -/
def stopStep (st : StopState) : StopEvent → StopState
  | .timerFires =>
    if st.timerArmed then
      { st with destroyed := st.destroyed ++ st.connections, timerArmed := false }
    else st
  | .closeCompletes =>
    if st.closed then st
    else
      { st with closed := true, connListenerRemoved := true, timerArmed := false,
                callbackFired := true, callbackError := none }
  | .connCloses k => { st with connections := st.connections.erase k }

/-- State immediately after the synchronous part of `_stop` on a started
server: the timer armed, close requested, nothing destroyed, callback
pending. -/
def stopInitState (conns : List String) : StopState :=
  { connections := conns, timerArmed := true, closed := false,
    callbackFired := false, callbackError := none, destroyed := [],
    connListenerRemoved := false }

/-- `_stop` on a server: when not started the callback fires on the next
tick with no other effect; when started the drain sequence runs over the
given completion order. -/
def stopRun (started : Bool) (conns : List String) (events : List StopEvent) : StopState :=
  if started then
    events.foldl stopStep (stopInitState conns)
  else
    { connections := conns, timerArmed := false, closed := false,
      callbackFired := true, callbackError := none, destroyed := [],
      connListenerRemoved := false }

/-! ### Start initialization (`internals.XXX.prototype._start` / `_init`) -/

/-- Ordered side effects of a fresh `_start`: `_init` starts the load
monitor, resets the connection registry, hooks the one-shot listening
handler and the connection handler, and then `_start` calls
`listener.listen`. -/
inductive StartAction where
  | heavyStart
  | resetConnections
  | hookListening
  | hookConnection
  | listen
deriving DecidableEq, Repr

/-- The lifecycle state `_start` reads and writes: the `_started` flag
and the connection registry. -/
structure LifecycleState where
  started : Bool
  connections : List String
deriving DecidableEq, Repr

/-- `_start`: on an already started server the callback is scheduled on
the next tick with no side effects; otherwise `_started` is set, `_init`
runs (resetting `_connections` to the empty object among its ordered side
effects), and the listener starts listening. -/
def serverStart (s : LifecycleState) : LifecycleState × List StartAction :=
  if s.started then (s, [])
  else
    ({ started := true, connections := [] },
     [.heavyStart, .resetConnections, .hookListening, .hookConnection, .listen])

/-! ## Helper lemmas -/

theorem corsOriginScan_go (l : List String) (q w : List String) :
    l.foldl
      (fun acc o =>
        if strContainsChar o '*' then (acc.1, acc.2 ++ [compileOriginPattern o])
        else (acc.1 ++ [o], acc.2))
      (q, w) =
    (q ++ l.filter (fun o => !strContainsChar o '*'),
     w ++ (l.filter (fun o => strContainsChar o '*')).map compileOriginPattern) := by
  induction l generalizing q w with
  | nil => simp
  | cons x xs ih =>
    by_cases hx : strContainsChar x '*'
    · simp [hx, ih]
    · simp [hx, ih]

theorem corsOriginScan_eq (origin : List String) :
    corsOriginScan origin =
      (origin.filter (fun o => !strContainsChar o '*'),
       (origin.filter (fun o => strContainsChar o '*')).map compileOriginPattern) := by
  simpa [corsOriginScan] using corsOriginScan_go origin [] []

/-! ## Claim theorems -/

/-- Claim C1 (amended): for every enabled CORS configuration with a
non-empty origin list, if the list is exactly `["*"]` the derived
`_origin` has `any = true`; if the element `"*"` appears together with any
other value, construction fails fatally; otherwise every entry containing
the character `*` is compiled (in list order) into an anchored pattern
with literals escaped, `*` mapped to `.*` and `?` mapped to `.`, and
appended to the wildcards list, every entry not containing `*` (even one
containing `?`) is appended to qualified, `qualifiedString` equals the
space join of qualified, and if `matchOrigin` is false while some entry
contains `*`, construction fails fatally. -/
theorem corsOriginClassification (origin : List String) (matchOrigin : Bool)
    (hne : origin ≠ []) :
    (origin = ["*"] →
      corsOriginResolve origin matchOrigin = .ok (some { any := true })) ∧
    ("*" ∈ origin → origin ≠ ["*"] →
      corsOriginResolve origin matchOrigin =
        .error "Cannot specify cors.origin * together with other values") ∧
    ("*" ∉ origin → matchOrigin = false → (∃ o ∈ origin, strContainsChar o '*' = true) →
      corsOriginResolve origin matchOrigin =
        .error "Cannot include wildcard origin values with matchOrigin disabled") ∧
    ("*" ∉ origin → (matchOrigin = true ∨ ∀ o ∈ origin, strContainsChar o '*' = false) →
      corsOriginResolve origin matchOrigin =
        .ok (some
          { any := false,
            qualified := origin.filter (fun o => !strContainsChar o '*'),
            qualifiedString :=
              String.intercalate " " (origin.filter (fun o => !strContainsChar o '*')),
            wildcards :=
              (origin.filter (fun o => strContainsChar o '*')).map compileOriginPattern })) := by
  have hlen : origin.length ≠ 0 := by
    intro h
    exact hne (List.length_eq_zero.mp h)
  refine ⟨?_, ?_, ?_, ?_⟩
  · rintro rfl
    simp [corsOriginResolve]
  · intro hmem hne1
    have hlen1 : origin.length ≠ 1 := by
      intro h1
      obtain ⟨a, ha⟩ := List.length_eq_one.mp h1
      subst ha
      simp only [List.mem_singleton] at hmem
      exact hne1 (by simp [hmem])
    simp [corsOriginResolve, hlen, hlen1, hmem]
  · intro hmem hmatch hwild
    obtain ⟨o, ho, hco⟩ := hwild
    have hscan := corsOriginScan_eq origin
    have hfil : (origin.filter (fun o => strContainsChar o '*')) ≠ [] := by
      intro hf
      have := List.filter_eq_nil_iff.mp hf o ho
      simp [hco] at this
    have hw : (corsOriginScan origin).2.length ≠ 0 := by
      rw [hscan]
      simpa using hfil
    simp [corsOriginResolve, hlen, hmem, hmatch, hw]
  · intro hmem hok
    have hscan := corsOriginScan_eq origin
    have hguard : (!matchOrigin && (corsOriginScan origin).2.length ≠ 0) = false := by
      rcases hok with hm | hall
      · simp [hm]
      · have hfil : (origin.filter (fun o => strContainsChar o '*')) = [] :=
          List.filter_eq_nil_iff.mpr (fun o ho => by simp [hall o ho])
        rw [hscan]
        simp [hfil]
    simp only [corsOriginResolve, hlen, if_false]
    rw [if_neg (by simpa using hmem)]
    rw [if_neg ?_]
    · rw [hscan]
    · simp only [hguard]
      exact Bool.false_ne_true

/-- Claim C1 counterexample: the entry `http://a?.com` contains the
wildcard character `?` but no `*`; the code appends it to `qualified` and
compiles no wildcard pattern, and with `matchOrigin` disabled construction
still succeeds, where the claim requires a compiled wildcard pattern and a
fatal error. -/
theorem corsOriginClassificationCounterexample :
    strContainsChar "http://a?.com" '?' = true ∧
    corsOriginResolve ["http://a?.com"] false =
      .ok (some { any := false, qualified := ["http://a?.com"],
                  qualifiedString := "http://a?.com", wildcards := [] }) := by
  constructor
  · decide
  · decide

/-- Witness for C1 at the concrete input of the spec:
`["http://a.com", "http://*.b.com"]` with `matchOrigin = true`. -/
theorem corsOriginClassification_witness :
    corsOriginResolve ["http://a.com", "http://*.b.com"] true =
      .ok (some { any := false, qualified := ["http://a.com"],
                  qualifiedString := "http://a.com",
                  wildcards := ["^http\\:\\/\\/.*\\.b\\.com$"] }) := by
  have h :=
    (corsOriginClassification ["http://a.com", "http://*.b.com"] true (by decide)).2.2.2
      (by decide) (Or.inl rfl)
  exact h.trans (by decide)

theorem getSlot_setSlot (r : ServerArgs) (k : SlotName) (w : JSVal) :
    getSlot (setSlot r k w) k = some w := by
  cases k <;> rfl

theorem serverArgsFold_on_error (args : List JSVal) (e : String) :
    args.foldl (fun (acc : Except String ServerArgs) v => acc.bind (fun r => classifyInto r v))
      (.error e) = .error e := by
  induction args with
  | nil => rfl
  | cons a as ih => exact ih

theorem serverArgsFold_badType (args : List JSVal) (r : ServerArgs) (v : JSVal)
    (t : String) (hv : v ∈ args) (hbad : classifyArg v = .badType t) :
    ∃ e, args.foldl (fun (acc : Except String ServerArgs) v => acc.bind (fun r => classifyInto r v))
      (.ok r) = .error e := by
  induction args generalizing r with
  | nil => cases hv
  | cons a as ih =>
    rcases List.mem_cons.mp hv with rfl | hmem
    · refine ⟨"Bad server constructor arguments: no match for arg type: " ++ t, ?_⟩
      have hstep : classifyInto r v =
          .error ("Bad server constructor arguments: no match for arg type: " ++ t) := by
        simp [classifyInto, hbad]
      simp only [List.foldl_cons, Except.bind, hstep]
      exact serverArgsFold_on_error as _
    · simp only [List.foldl_cons, Except.bind]
      cases h : classifyInto r a with
      | error e =>
        exact ⟨e, serverArgsFold_on_error as e⟩
      | ok r2 =>
        exact ih r2 hmem

/-- Claim C2: each defined constructor argument is assigned to exactly one
slot by runtime type — string to host, number to port, object (including
`null`) to options — except that a string whose ToNumber image is finite
is coerced to that number and assigned to the port slot; composite
instances go to the pack slot and `undefined` is skipped; and any
argument whose type has no slot (boolean, function) makes construction
fail fatally. -/
theorem serverArgClassification :
    (∀ s, jsNumFinite (jsStrToNum s) = true →
      classifyArg (.str s) = .slot .port (.num (jsStrToNum s))) ∧
    (∀ s, jsNumFinite (jsStrToNum s) = false →
      classifyArg (.str s) = .slot .host (.str s)) ∧
    (∀ n, classifyArg (.num n) = .slot .port (.num n)) ∧
    (∀ i, classifyArg (.obj i) = .slot .options (.obj i)) ∧
    (classifyArg .jsNull = .slot .options .jsNull) ∧
    (∀ i, classifyArg (.pack i) = .toPack i) ∧
    (classifyArg .undefined = .skip) ∧
    (∀ b, classifyArg (.boolean b) = .badType "boolean") ∧
    (classifyArg .func = .badType "function") ∧
    (∀ args v, v ∈ args → (∃ t, classifyArg v = .badType t) →
      ∃ e, serverArgsOf args = .error e) := by
  refine ⟨?_, ?_, fun _ => rfl, fun _ => rfl, rfl, fun _ => rfl, rfl, fun _ => rfl,
    rfl, ?_⟩
  · intro s h
    simp [classifyArg, h]
  · intro s h
    simp [classifyArg, h]
  · intro args v hv ⟨t, hbad⟩
    by_cases hlen : args.length ≤ 4
    · obtain ⟨e, he⟩ := serverArgsFold_badType args {} v t hv hbad
      exact ⟨e, by simpa [serverArgsOf, hlen, serverArgsFold] using he⟩
    · exact ⟨"Too many arguments", by simp [serverArgsOf, hlen]⟩

/-- Witness for C2: the numeric string of the spec example is coerced to
the port slot with value 8080, and a boolean argument is fatal. -/
theorem serverArgClassification_witness :
    classifyArg (.str "8080") = .slot .port (.num (.finite 8080)) ∧
    (∃ e, serverArgsOf [.boolean true] = .error e) := by
  constructor
  · have h := serverArgClassification.1 "8080" (by decide)
    exact h.trans (by decide)
  · exact serverArgClassification.2.2.2.2.2.2.2.2.2 [.boolean true] (.boolean true)
      (by decide) ⟨"boolean", by decide⟩

/-- Claim C3 (amended): a pair of constructor arguments that classify to
the same logical slot is a fatal duplicate error whenever the value
stored by the first argument is truthy (a nonempty host string, a nonzero
port number, a non-null options object); in particular `(8080, 9090)` is
rejected. A falsy first value (port 0, the empty-string coercion to port
0, or a `null` options argument) is silently overwritten instead, because
the source guards the duplicate check with `!result[key]`. -/
theorem serverArgsDuplicateSlot (v₁ v₂ : JSVal) (k : SlotName) (w₁ w₂ : JSVal)
    (h₁ : classifyArg v₁ = .slot k w₁) (h₂ : classifyArg v₂ = .slot k w₂)
    (ht : jsTruthy w₁ = true) :
    serverArgsOf [v₁, v₂] =
      .error "Bad server constructor arguments: duplicated arg type" := by
  have hempty : slotOccupiedTruthy {} k = false := by
    cases k <;> rfl
  have hset : classifyInto {} v₁ = .ok (setSlot {} k w₁) := by
    simp [classifyInto, h₁, hempty]
  have hocc : slotOccupiedTruthy (setSlot {} k w₁) k = true := by
    unfold slotOccupiedTruthy
    rw [getSlot_setSlot]
    exact ht
  have hdup : classifyInto (setSlot {} k w₁) v₂ =
      .error "Bad server constructor arguments: duplicated arg type" := by
    simp [classifyInto, h₂, hocc]
  have hlen : ([v₁, v₂].length ≤ 4) = True := by simp
  simp only [serverArgsOf, serverArgsFold, hlen, if_true, List.foldl_cons,
    List.foldl_nil, Except.bind, hset, hdup]

/-- Claim C3 counterexample: the pair `(0, 9090)` classifies both
arguments to the port slot, yet construction succeeds with port 9090
(the stored 0 is falsy, so the `!result[key]` duplicate check passes and
the value is overwritten). -/
theorem serverArgsDuplicateSlotCounterexample :
    classifyArg (.num (.finite 0)) = .slot .port (.num (.finite 0)) ∧
    classifyArg (.num (.finite 9090)) = .slot .port (.num (.finite 9090)) ∧
    serverArgsOf [.num (.finite 0), .num (.finite 9090)] =
      .ok { port := some (.num (.finite 9090)) } := by
  refine ⟨rfl, rfl, ?_⟩
  decide

/-- Witness for C3 at the spec example `(8080, 9090)`. -/
theorem serverArgsDuplicateSlot_witness :
    serverArgsOf [.num (.finite 8080), .num (.finite 9090)] =
      .error "Bad server constructor arguments: duplicated arg type" :=
  serverArgsDuplicateSlot (.num (.finite 8080)) (.num (.finite 9090)) .port
    (.num (.finite 8080)) (.num (.finite 9090)) rfl rfl (by decide)

/-- Claim C10: the empty string coerces to the finite number 0
(`isFinite(+"") === true`), so it is assigned to the port slot with value
0, not to the host slot, and the constructor then resolves host `""` with
port 0 (the supplied port 0 is not `undefined`, so the default 80 does
not apply). -/
theorem emptyStringArgClassification :
    jsStrToNum "" = .finite 0 ∧
    classifyArg (.str "") = .slot .port (.num (.finite 0)) ∧
    serverArgsOf [.str ""] = .ok { port := some (.num (.finite 0)) } ∧
    resolveHostPort { port := some (.num (.finite 0)) } false =
      .ok ("", .finite 0) := by
  refine ⟨by decide, by decide, by decide, by decide⟩

/-- Claim C4 (amended): with the effective socket timeout equal to the
configured value or 2 minutes (120000) when unset, construction fails
exactly when an enabled server timeout is not less than an enabled
effective socket timeout, or an enabled client timeout is not less than
an enabled effective socket timeout; a disabled side lifts the
constraint. The configuration `{socket: 1000, server: 2000}` is rejected;
`{socket: 5000, server: 2000}` is rejected as well because the client
timeout defaults to 10000, which is not less than 5000 — the example is
accepted only with the client timeout also disabled. -/
theorem timeoutCrossValidation (t : TimeoutConfig) :
    (timeoutsValid t = false ↔
      (timeoutTruthy t.server = true ∧
        timeoutTruthy (effectiveSocketTimeout t) = true ∧
        timeoutLt t.server (effectiveSocketTimeout t) = false) ∨
      (timeoutTruthy t.client = true ∧
        timeoutTruthy (effectiveSocketTimeout t) = true ∧
        timeoutLt t.client (effectiveSocketTimeout t) = false)) ∧
    timeoutsValid (mergeTimeout { socket := some (.ms 1000), server := some (.ms 2000) }) =
      false ∧
    timeoutsValid
      (mergeTimeout { socket := some (.ms 5000), client := some .off, server := some (.ms 2000) }) =
      true := by
  refine ⟨?_, by decide, by decide⟩
  cases h1 : timeoutTruthy t.server <;>
    cases h2 : timeoutTruthy (effectiveSocketTimeout t) <;>
      cases h3 : timeoutLt t.server (effectiveSocketTimeout t) <;>
        cases h4 : timeoutTruthy t.client <;>
          cases h5 : timeoutLt t.client (effectiveSocketTimeout t) <;>
            simp [timeoutsValid, h1, h2, h3, h4, h5]

/-- Claim C4 counterexample: the spec example `{socket: 5000, server:
2000}` is claimed accepted, but the defaults give the client timeout
10000, and `10000 < 5000` fails the client assertion, so construction
fails fatally. -/
theorem timeoutCrossValidationCounterexample :
    realmResolve
        { timeout := some { socket := some (.ms 5000), server := some (.ms 2000) } } =
      .error "Realm or client timeout must be shorter than socket timeout" := by
  decide

/-- Witness for C4 at the spec example `{socket: 1000, server: 2000}`:
the iff instantiated there yields a concrete rejection. -/
theorem timeoutCrossValidation_witness :
    timeoutsValid { socket := .ms 1000, client := .ms 10000, server := .ms 2000 } =
      false := by
  have h :=
    (timeoutCrossValidation { socket := .ms 1000, client := .ms 10000, server := .ms 2000 }).1
  exact h.mpr (Or.inl ⟨by decide, by decide, by decide⟩)

/-- Claim C5 (amended): for every enabled security configuration, `hsts`
false or 0 yields no header, true yields `max-age=15768000`, a nonzero
number n yields `max-age=` followed by n, an object yields `max-age=`
followed by `maxAge` (or 15768000 when `maxAge` is absent or 0) with
`; includeSubdomains` appended exactly when the flag is set; `xframe`
false or the empty string yields no header, true yields `DENY`, a
nonempty string yields that string upper-cased, an object with rule
`allow-from` yields `SAMEORIGIN` when the source is absent or empty and
`ALLOW-FROM ` followed by the source otherwise, and an object with any
other rule yields that rule upper-cased. -/
theorem securityHeaderDerivation :
    (hstsHeader (.flag false) = none) ∧
    (hstsHeader (.flag true) = some "max-age=15768000") ∧
    (∀ n : ℤ, n ≠ 0 → hstsHeader (.num n) = some ("max-age=" ++ toString n)) ∧
    (hstsHeader (.num 0) = none) ∧
    (∀ m : ℤ, m ≠ 0 → ∀ inc : Bool, hstsHeader (.object (some m) inc) =
      some ("max-age=" ++ toString m ++ (if inc then "; includeSubdomains" else ""))) ∧
    (∀ inc : Bool, hstsHeader (.object none inc) =
      some ("max-age=15768000" ++ (if inc then "; includeSubdomains" else ""))) ∧
    (∀ inc : Bool, hstsHeader (.object (some 0) inc) =
      some ("max-age=15768000" ++ (if inc then "; includeSubdomains" else ""))) ∧
    (xframeHeader (.flag false) = none) ∧
    (xframeHeader (.flag true) = some "DENY") ∧
    (∀ s, s ≠ "" → xframeHeader (.str s) = some (strToUpper s)) ∧
    (xframeHeader (.str "") = none) ∧
    (∀ src, xframeHeader (.object "allow-from" (some src)) =
      (if src = "" then some "SAMEORIGIN" else some ("ALLOW-FROM " ++ src))) ∧
    (xframeHeader (.object "allow-from" none) = some "SAMEORIGIN") ∧
    (∀ rule src, rule ≠ "allow-from" →
      xframeHeader (.object rule src) = some (strToUpper rule)) := by
  refine ⟨rfl, rfl, ?_, rfl, ?_, ?_, ?_, rfl, rfl, ?_, rfl, ?_, rfl, ?_⟩
  · intro n h
    simp [hstsHeader, hstsTruthy, h]
  · intro m h inc
    simp [hstsHeader, hstsTruthy, h]
  · intro inc
    simp [hstsHeader, hstsTruthy]
    rfl
  · intro inc
    simp [hstsHeader, hstsTruthy]
    rfl
  · intro s h
    simp [xframeHeader, xframeTruthy, h]
  · intro src
    by_cases h : src = "" <;> simp [xframeHeader, xframeTruthy, h]
  · intro rule src h
    cases src <;> simp [xframeHeader, xframeTruthy, h]

/-- Claim C5 counterexample: `hsts: 0` is a number, for which the claim
requires the header `max-age=0`, but the setting is falsy so the code
derives no header at all; likewise the empty-string `xframe` derives no
header instead of an empty upper-cased one, and an `allow-from` object
with an empty source derives `SAMEORIGIN` instead of `ALLOW-FROM `. -/
theorem securityHeaderDerivationCounterexample :
    hstsHeader (.num 0) = none ∧
    hstsHeader (.num 0) ≠ some "max-age=0" ∧
    xframeHeader (.str "") = none ∧
    xframeHeader (.object "allow-from" (some "")) = some "SAMEORIGIN" := by
  refine ⟨rfl, by decide, rfl, rfl⟩

/-- Witness for C5 at concrete settings: a 60-second `hsts` and a
lower-case `xframe` string. -/
theorem securityHeaderDerivation_witness :
    hstsHeader (.num 60) = some "max-age=60" ∧
    xframeHeader (.str "sameorigin") = some "SAMEORIGIN" := by
  constructor
  · exact (securityHeaderDerivation.2.2.1 60 (by decide)).trans (by decide)
  · exact (securityHeaderDerivation.2.2.2.2.2.2.2.2.2.1 "sameorigin" (by decide)).trans
      (by decide)

/-- Claim C6: for every inbound request, when the load check fails
(overloaded) the gate logs the `['hapi', 'load']` tag and produces
exactly one service-unavailable rejection carrying the load snapshot
without invoking the pipeline; when the check passes the pipeline runs
exactly once and the gate writes nothing; on either path the number of
rejection responses plus pipeline invocations (each of which produces
exactly one response by the pipeline contract) is exactly one. -/
theorem admissionGateDispatch {α : Type} (load : α) :
    dispatchRequest false load =
      { logs := [["hapi", "load"]], rejections := [load], executions := 0 } ∧
    dispatchRequest true load =
      { logs := [], rejections := [], executions := 1 } ∧
    ∀ check, (dispatchRequest check load).rejections.length +
      (dispatchRequest check load).executions = 1 := by
  refine ⟨rfl, rfl, ?_⟩
  intro check
  cases check <;> rfl

/-- Claim C7: configuration resolution is deterministic and pure — two
resolutions of the same raw options yield identical derived header
strings (`_headers`, `_methods`, `_exposedHeaders`, `qualifiedString`,
`_hsts`, `_xframe`) and identical settings; the embedding is a pure
function of the raw options because the source writes only to the
settings object freshly cloned from the defaults by
`Hoek.applyToDefaults*`, never to the caller-supplied options. -/
theorem configResolutionDeterministic (o : RawServerOptions)
    (r₁ r₂ : ResolvedSettings)
    (h₁ : realmResolve o = .ok r₁) (h₂ : realmResolve o = .ok r₂) :
    (r₁.cors.map (fun c => (c.headerString, c.methodString, c.exposedHeaderString)) =
      r₂.cors.map (fun c => (c.headerString, c.methodString, c.exposedHeaderString))) ∧
    (r₁.cors.map (fun c => c.origin.map (fun og => og.qualifiedString)) =
      r₂.cors.map (fun c => c.origin.map (fun og => og.qualifiedString))) ∧
    (r₁.security.map (fun sd => (sd.hstsString, sd.xframeString)) =
      r₂.security.map (fun sd => (sd.hstsString, sd.xframeString))) ∧
    r₁ = r₂ := by
  have h : r₁ = r₂ := Except.ok.inj (h₁.symm.trans h₂)
  subst h
  exact ⟨rfl, rfl, rfl, rfl⟩

/-- Witness for C7: resolution of the default-enabled CORS and security
options succeeds, and the theorem applied to that resolution. -/
theorem configResolutionDeterministic_witness :
    ∃ r, realmResolve { cors := some .defaults, security := some .defaults } = .ok r ∧
      ((r.cors.map (fun c => (c.headerString, c.methodString, c.exposedHeaderString)) =
        r.cors.map (fun c => (c.headerString, c.methodString, c.exposedHeaderString))) ∧
      (r.cors.map (fun c => c.origin.map (fun og => og.qualifiedString)) =
        r.cors.map (fun c => c.origin.map (fun og => og.qualifiedString))) ∧
      (r.security.map (fun sd => (sd.hstsString, sd.xframeString)) =
        r.security.map (fun sd => (sd.hstsString, sd.xframeString))) ∧
      r = r) := by
  have hok : (realmResolve { cors := some .defaults, security := some .defaults }).isOk =
      true := by decide
  cases hres : realmResolve { cors := some .defaults, security := some .defaults } with
  | error e =>
    rw [hres] at hok
    simp [Except.isOk, Except.toBool] at hok
  | ok r =>
    exact ⟨r, rfl, configResolutionDeterministic _ r r hres hres⟩

theorem stopFold_quiet (evs : List StopEvent) (st : StopState)
    (hT : StopEvent.timerFires ∉ evs) (hC : StopEvent.closeCompletes ∉ evs) :
    (evs.foldl stopStep st).timerArmed = st.timerArmed ∧
    (evs.foldl stopStep st).destroyed = st.destroyed ∧
    (evs.foldl stopStep st).closed = st.closed ∧
    (evs.foldl stopStep st).callbackFired = st.callbackFired := by
  induction evs generalizing st with
  | nil => exact ⟨rfl, rfl, rfl, rfl⟩
  | cons e es ih =>
    have hT2 : StopEvent.timerFires ∉ es := fun h => hT (List.mem_cons_of_mem _ h)
    have hC2 : StopEvent.closeCompletes ∉ es := fun h => hC (List.mem_cons_of_mem _ h)
    cases e with
    | timerFires => exact absurd (List.mem_cons_self _ _) hT
    | closeCompletes => exact absurd (List.mem_cons_self _ _) hC
    | connCloses k =>
      simpa [stopStep] using ih { st with connections := st.connections.erase k } hT2 hC2

theorem stopFold_disarmed (evs : List StopEvent) (st : StopState)
    (hA : st.timerArmed = false) :
    (evs.foldl stopStep st).destroyed = st.destroyed ∧
    (evs.foldl stopStep st).timerArmed = false := by
  induction evs generalizing st with
  | nil => exact ⟨rfl, hA⟩
  | cons e es ih =>
    cases e with
    | timerFires =>
      simpa [stopStep, hA] using ih st hA
    | closeCompletes =>
      by_cases hc : st.closed = true
      · simpa [stopStep, hc] using ih st hA
      · have hc2 : st.closed = false := Bool.eq_false_iff.mpr hc
        simpa [stopStep, hc2] using
          ih { st with closed := true, connListenerRemoved := true, timerArmed := false,
                       callbackFired := true, callbackError := none } rfl
    | connCloses k =>
      simpa [stopStep] using ih { st with connections := st.connections.erase k } hA

theorem stopFold_closed_iff (evs : List StopEvent) (st : StopState) :
    ((evs.foldl stopStep st).closed = true ↔
      (st.closed = true ∨ StopEvent.closeCompletes ∈ evs)) := by
  induction evs generalizing st with
  | nil => simp
  | cons e es ih =>
    cases e with
    | timerFires =>
      by_cases ha : st.timerArmed = true <;>
        simp [stopStep, ha, ih, List.mem_cons]
    | closeCompletes =>
      by_cases hc : st.closed = true
      · simp [stopStep, hc, ih, List.mem_cons]
      · have hc2 : st.closed = false := Bool.eq_false_iff.mpr hc
        simp [stopStep, hc2, ih, List.mem_cons]
    | connCloses k =>
      simp [stopStep, ih, List.mem_cons]

theorem stopFold_closed_armed (evs : List StopEvent) (st : StopState)
    (hinv : st.closed = true → st.timerArmed = false) :
    (evs.foldl stopStep st).closed = true →
      (evs.foldl stopStep st).timerArmed = false := by
  induction evs generalizing st with
  | nil => exact hinv
  | cons e es ih =>
    cases e with
    | timerFires =>
      by_cases ha : st.timerArmed = true
      · have hstep : stopStep st .timerFires =
            { st with destroyed := st.destroyed ++ st.connections, timerArmed := false } := by
          simp [stopStep, ha]
        rw [List.foldl_cons, hstep]
        exact ih _ (fun _ => rfl)
      · have ha2 : st.timerArmed = false := Bool.eq_false_iff.mpr ha
        simpa [stopStep, ha2] using ih st hinv
    | closeCompletes =>
      by_cases hc : st.closed = true
      · simpa [stopStep, hc] using ih st hinv
      · have hc2 : st.closed = false := Bool.eq_false_iff.mpr hc
        simpa [stopStep, hc2] using
          ih { st with closed := true, connListenerRemoved := true, timerArmed := false,
                       callbackFired := true, callbackError := none } (fun _ => rfl)
    | connCloses k =>
      simpa [stopStep] using ih { st with connections := st.connections.erase k } hinv

theorem stopFold_fired_eq_closed (evs : List StopEvent) (st : StopState)
    (h : st.callbackFired = st.closed) :
    (evs.foldl stopStep st).callbackFired = (evs.foldl stopStep st).closed := by
  induction evs generalizing st with
  | nil => exact h
  | cons e es ih =>
    cases e with
    | timerFires =>
      by_cases ha : st.timerArmed = true <;>
        simp_all [stopStep]
    | closeCompletes =>
      by_cases hc : st.closed = true
      · simpa [stopStep, hc] using ih st h
      · have hc2 : st.closed = false := Bool.eq_false_iff.mpr hc
        simpa [stopStep, hc2] using
          ih { st with closed := true, connListenerRemoved := true, timerArmed := false,
                       callbackFired := true, callbackError := none } rfl
    | connCloses k =>
      simpa [stopStep] using ih { st with connections := st.connections.erase k } h

theorem stopFold_error_none (evs : List StopEvent) (st : StopState)
    (h : st.callbackError = none) :
    (evs.foldl stopStep st).callbackError = none := by
  induction evs generalizing st with
  | nil => exact h
  | cons e es ih =>
    cases e with
    | timerFires =>
      by_cases ha : st.timerArmed = true <;> simp_all [stopStep]
    | closeCompletes =>
      by_cases hc : st.closed = true
      · simpa [stopStep, hc] using ih st h
      · have hc2 : st.closed = false := Bool.eq_false_iff.mpr hc
        simpa [stopStep, hc2] using
          ih { st with closed := true, connListenerRemoved := true, timerArmed := false,
                       callbackFired := true, callbackError := none } rfl
    | connCloses k =>
      simpa [stopStep] using ih { st with connections := st.connections.erase k } h

/-- Claim C8: for every stop of a started server, the drain timer is set
to `options.timeout` (5000 when unset); the stop callback fires exactly
when the listener close completes (so it always eventually fires once the
close completes, and only after it); once the close completes the timer
is cancelled and stays cancelled; if the timer fires before the close
completes, every connection still registered at that moment is forcibly
destroyed; and the callback never carries an error, so a shutdown timeout
is never reported to the caller. -/
theorem shutdownDrainBound :
    (∀ t : ℚ, t ≠ 0 → effectiveStopTimeout { timeout := some t } = t) ∧
    (effectiveStopTimeout { timeout := none } = 5000) ∧
    (∀ conns evs, ((stopRun true conns evs).callbackFired = true ↔
      StopEvent.closeCompletes ∈ evs)) ∧
    (∀ conns evs, StopEvent.closeCompletes ∈ evs →
      (stopRun true conns evs).timerArmed = false) ∧
    (∀ conns (pre post : List StopEvent), StopEvent.timerFires ∉ pre →
      StopEvent.closeCompletes ∉ pre →
      (stopRun true conns (pre ++ StopEvent.timerFires :: post)).destroyed =
        (stopRun true conns pre).connections) ∧
    (∀ started conns evs, (stopRun started conns evs).callbackError = none) := by
  refine ⟨?_, rfl, ?_, ?_, ?_, ?_⟩
  · intro t ht
    simp [effectiveStopTimeout, ht]
  · intro conns evs
    rw [stopRun, if_pos rfl]
    rw [stopFold_fired_eq_closed evs (stopInitState conns) rfl]
    rw [stopFold_closed_iff evs (stopInitState conns)]
    simp [stopInitState]
  · intro conns evs hmem
    rw [stopRun, if_pos rfl]
    refine stopFold_closed_armed evs (stopInitState conns) ?_ ?_
    · intro h
      simp [stopInitState] at h
    · rw [stopFold_closed_iff evs (stopInitState conns)]
      exact Or.inr hmem
  · intro conns pre post hT hC
    show ((pre ++ StopEvent.timerFires :: post).foldl stopStep (stopInitState conns)).destroyed =
      (pre.foldl stopStep (stopInitState conns)).connections
    rw [List.foldl_append, List.foldl_cons]
    obtain ⟨hA, hD, _, _⟩ := stopFold_quiet pre (stopInitState conns) hT hC
    set mid := pre.foldl stopStep (stopInitState conns)
    have hmidA : mid.timerArmed = true := by rw [hA]; rfl
    have hstep : stopStep mid .timerFires =
        { mid with destroyed := mid.destroyed ++ mid.connections, timerArmed := false } := by
      simp [stopStep, hmidA]
    rw [hstep]
    have hfin := (stopFold_disarmed post
      { mid with destroyed := mid.destroyed ++ mid.connections, timerArmed := false } rfl).1
    rw [hfin]
    have hDnil : mid.destroyed = [] := hD
    simp [hDnil]
  · intro started conns evs
    rw [stopRun]
    by_cases hs : started = true
    · rw [if_pos hs]
      exact stopFold_error_none evs (stopInitState conns) rfl
    · rw [if_neg hs]

/-- Witness for C8: a 200-unit drain timeout is kept; with one held
connection and the timer firing before the close completes, the held
connection is destroyed; and after the close completes the timer is
cancelled and the callback has fired. -/
theorem shutdownDrainBound_witness :
    effectiveStopTimeout { timeout := some 200 } = 200 ∧
    (stopRun true ["10.0.0.9:4821"] [.timerFires, .closeCompletes]).destroyed =
      (stopRun true ["10.0.0.9:4821"] []).connections ∧
    (stopRun true ["10.0.0.9:4821"] [.timerFires, .closeCompletes]).timerArmed = false ∧
    ((stopRun true ["10.0.0.9:4821"] [.timerFires, .closeCompletes]).callbackFired = true ↔
      StopEvent.closeCompletes ∈ [StopEvent.timerFires, StopEvent.closeCompletes]) := by
  refine ⟨shutdownDrainBound.1 200 (by decide), ?_, ?_, ?_⟩
  · exact shutdownDrainBound.2.2.2.2.1 ["10.0.0.9:4821"] [] [.closeCompletes]
      (by decide) (by decide)
  · exact shutdownDrainBound.2.2.2.1 ["10.0.0.9:4821"] [.timerFires, .closeCompletes]
      (by decide)
  · exact shutdownDrainBound.2.2.1 ["10.0.0.9:4821"] [.timerFires, .closeCompletes]

/-- Claim C9: starting a server that is not currently listening resets
the connection registry to the empty map during `_init`, before the
listener is asked to listen, so no connection entries persist across
stop/start cycles on the same instance. -/
theorem startResetsConnectionRegistry (s : LifecycleState) (h : s.started = false) :
    (serverStart s).1.connections = [] ∧
    (serverStart s).1.started = true ∧
    (serverStart s).2 =
      [.heavyStart, .resetConnections, .hookListening, .hookConnection, .listen] ∧
    (serverStart s).2.findIdx (fun a => a = .resetConnections) <
      (serverStart s).2.findIdx (fun a => a = .listen) := by
  rw [serverStart, if_neg (by simp [h])]
  exact ⟨rfl, rfl, rfl, by decide⟩

/-- Witness for C9: a stopped instance with a stale registry entry starts
with an empty registry. -/
theorem startResetsConnectionRegistry_witness :
    (serverStart { started := false, connections := ["10.0.0.2:9999"] }).1.connections =
      [] ∧
    (serverStart { started := false, connections := ["10.0.0.2:9999"] }).1.started = true ∧
    (serverStart { started := false, connections := ["10.0.0.2:9999"] }).2 =
      [.heavyStart, .resetConnections, .hookListening, .hookConnection, .listen] ∧
    (serverStart { started := false, connections := ["10.0.0.2:9999"] }).2.findIdx
        (fun a => a = .resetConnections) <
      (serverStart { started := false, connections := ["10.0.0.2:9999"] }).2.findIdx
        (fun a => a = .listen) :=
  startResetsConnectionRegistry { started := false, connections := ["10.0.0.2:9999"] } rfl

end Hapi
